import Mathlib

/-!
Verification of the staking state machine and block-lifecycle driver of the
chain-abci / chain-core crates.

The development shallowly embeds:
  * `chain-core/src/init/coin.rs` (Coin, CoinError, checked arithmetic),
  * `chain-core/src/init/config.rs` (genesis distribution validation),
  * `chain-abci/src/app/mod.rs` (begin-block panic behaviour, info handler),
  * the staking transaction handlers and validator schedule.  The staking
    table implementation (`chain-abci/src/staking/table.rs`, `tx.rs`) is not
    present in the source tree (only its test module is), so those parts are
    modelled from the specification, cross-checked against the in-tree tests.

Machine integers are embedded as `Nat` with an explicit `% 2^64` wherever the
source performs plain (wrapping-on-release) `u64` addition.
-/

/-- The u64 modulus: `2 ^ 64`. -/
def U64_MOD : Nat := 18446744073709551616

/-- Modelled from the spec: `MAX_COIN` is the fixed-supply constant declared in
`chain-core/src/init/mod.rs` (the file itself is absent from the tree).  Its
value `10^19` (100 billion units at 8 decimals) is pinned by the in-tree
genesis test (`client-index/src/tendermint/types/genesis.rs`), which allots the
full supply `10000000000000000000` to a single address and expects the
distribution to validate. -/
def MAX_COIN : Nat := 10000000000000000000

/-- Embeds `Coin` (`chain-core/src/init/coin.rs`): a newtype over `u64`.
The well-formedness bound `val ≤ MAX_COIN` is maintained by the smart
constructor `Coin.new`, exactly as in the source. -/
structure Coin where
  val : Nat
deriving DecidableEq

/-- Embeds `CoinError` (`chain-core/src/init/coin.rs`). -/
inductive CoinError
  | OutOfBound (v : Nat)
  | ParseIntError
  | Negative
deriving DecidableEq

/-- Embeds `Coin::new`: accepts a value iff it is at most `MAX_COIN`. -/
def Coin.new (v : Nat) : Except CoinError Coin :=
  if v ≤ MAX_COIN then .ok ⟨v⟩ else .error (.OutOfBound v)

/-- Embeds `Coin::zero`. -/
def Coin.zero : Coin := ⟨0⟩

/-- Embeds `Coin::max`. -/
def Coin.maxCoin : Coin := ⟨MAX_COIN⟩

/-- Embeds `impl ops::Add for Coin`: `Coin::new(self.0 + other.0)`.  The
source adds the raw `u64` values without a checked/saturating primitive, so
the embedded addition wraps at `2^64` (release-profile Rust semantics; a
debug build would abort on the same inputs) before the `MAX_COIN` bound is
checked by `Coin::new`. -/
def Coin.add (a b : Coin) : Except CoinError Coin :=
  Coin.new ((a.val + b.val) % U64_MOD)

/-- Embeds `impl ops::Sub for Coin`: errors with `Negative` when the
subtrahend exceeds the minuend, otherwise subtracts exactly. -/
def Coin.sub (a b : Coin) : Except CoinError Coin :=
  if a.val < b.val then .error .Negative else .ok ⟨a.val - b.val⟩

/-- Embeds `sum_coins` (`chain-core/src/init/coin.rs`): a fold of the checked
addition starting from `Coin::new(0)`. -/
def sumCoins (l : List Coin) : Except CoinError Coin :=
  l.foldl (fun acc c => acc.bind (fun v => v.add c)) (Coin.new 0)

instance {ε α : Type} [DecidableEq ε] [DecidableEq α] :
    DecidableEq (Except ε α) := fun a b =>
  match a, b with
  | .ok x, .ok y =>
      if h : x = y then .isTrue (congrArg Except.ok h)
      else .isFalse (fun hc => h (Except.ok.inj hc))
  | .error x, .error y =>
      if h : x = y then .isTrue (congrArg Except.error h)
      else .isFalse (fun hc => h (Except.error.inj hc))
  | .ok _, .error _ => .isFalse (fun hc => Except.noConfusion hc)
  | .error _, .ok _ => .isFalse (fun hc => Except.noConfusion hc)

/- ## Staking account model

`StakedState` and the five public staking transactions.  The staking table
implementation is absent from the tree (only `chain-abci/src/staking/mod.rs`,
its test module, is present), so the transaction handlers are modelled from
the specification (section 4.2) and checked against the behaviour asserted by
those tests. -/

/-- Timestamps are seconds (`Timespec`). -/
abbrev Timespec := Nat

/-- Staking addresses, abstracted to naturals; only identity and the total
order (for the schedule tie-break) matter to the embedded claims. -/
abbrev Addr := Nat

/-- Validator consensus keys, abstracted to naturals; only identity matters
to the embedded claims. -/
abbrev ValKey := Nat

/-- Embeds `PunishmentKind`. -/
inductive PunishmentKind
  | NonLive
  | ByzantineFault
deriving DecidableEq

/-- Modelled from the spec: a slash proportion (`SlashRatio`), kept as an
exact fraction `num / den`; multiplying a coin amount floors, matching the
integer fixed-point arithmetic described by the spec. -/
structure SlashProportion where
  num : Nat
  den : Nat
deriving DecidableEq

/-- Modelled from the spec: `PunishmentRecord` — `{ kind, proportion,
slash_at }`; while present the account is jailed and the deduction is
deferred until `slash_at`. -/
structure PunishmentRecord where
  kind : PunishmentKind
  proportion : SlashProportion
  slashAt : Timespec
deriving DecidableEq

/-- Modelled from the spec: `ValidatorBinding` — the consensus key currently
bound to the account, the retention set of previously used keys, and the
liveness window (most recent observation first). -/
structure ValidatorBinding where
  consensusKey : ValKey
  usedKeys : List ValKey
  window : List Bool
deriving DecidableEq

/-- Modelled from the spec: `StakedState`, the per-address ledger record
(section 3 of the spec; the Rust definition lives in
`chain-core/src/state/account.rs`, absent from the tree). -/
structure StakedState where
  address : Addr
  nonce : Nat
  bonded : Nat
  unbonded : Nat
  unbondedFrom : Timespec
  validator : Option ValidatorBinding
  jailedUntil : Option Timespec
  punishment : Option PunishmentRecord
deriving DecidableEq

/-- Embeds `StakedState::is_jailed`: jailed iff `jailed_until` is present. -/
def StakedState.isJailed (s : StakedState) : Bool := s.jailedUntil.isSome

/-- Modelled from the spec: the default (zero) account implicitly created on
first touch of an address. -/
def StakedState.zero (a : Addr) : StakedState :=
  { address := a, nonce := 0, bonded := 0, unbonded := 0, unbondedFrom := 0,
    validator := none, jailedUntil := none, punishment := none }

/-- Modelled from the spec: the error taxonomy of the staking transactions
(section 4.2). -/
inductive TxError
  | IsJailed
  | NonceMismatch
  | InsufficientBalance
  | BelowMinimumStake
  | DuplicateValidatorKey
  | UsedValidatorKeyFull
  | JailTimeNotExpired
  | NotJailed
  | NotYetUnbonded
  | SumMismatch
deriving DecidableEq

/-- Modelled from the spec: `MAX_USED_VALIDATOR_KEYS` (typically 10). -/
def MAX_USED_VALIDATOR_KEYS : Nat := 10

/-- Modelled from the spec: `Deposit` — rejected while jailed, otherwise adds
the deposited value to `bonded` and does not touch the nonce (the test module
asserts both behaviours). -/
def deposit (s : StakedState) (amount : Nat) : Except TxError StakedState :=
  if s.isJailed then .error .IsJailed
  else .ok { s with bonded := s.bonded + amount }

/-- Modelled from the spec: `Unbond` — rejected while jailed; requires the
transaction nonce to equal the account nonce and `value + fee ≤ bonded`;
moves `value` to `unbonded`, sets `unbonded_from = now + unbonding_period`,
and increments the nonce by one. -/
def unbond (unbondingPeriod now fee : Nat) (s : StakedState)
    (txNonce value : Nat) : Except TxError StakedState :=
  if s.isJailed then .error .IsJailed
  else if txNonce ≠ s.nonce then .error .NonceMismatch
  else if s.bonded < value + fee then .error .InsufficientBalance
  else .ok { s with bonded := s.bonded - (value + fee),
                    unbonded := s.unbonded + value,
                    unbondedFrom := now + unbondingPeriod,
                    nonce := s.nonce + 1 }

/-- Modelled from the spec: `Withdraw` — rejected while jailed; requires a
matching nonce, `now ≥ unbonded_from` and `sum(outputs) + fee = unbonded`;
zeroes `unbonded` and increments the nonce by one. -/
def withdraw (now : Nat) (s : StakedState) (txNonce outputsSum fee : Nat) :
    Except TxError StakedState :=
  if s.isJailed then .error .IsJailed
  else if txNonce ≠ s.nonce then .error .NonceMismatch
  else if now < s.unbondedFrom then .error .NotYetUnbonded
  else if outputsSum + fee ≠ s.unbonded then .error .SumMismatch
  else .ok { s with unbonded := 0, nonce := s.nonce + 1 }

/-- Modelled from the spec: `NodeJoin` — rejected while jailed; requires a
matching nonce, `bonded ≥ required_council_node_stake`, a consensus key not
used by any other account (the `keyUsable` oracle, instantiated from the
whole store at the store level), and a used-key retention set below
`MAX_USED_VALIDATOR_KEYS`; binds the key, pushes the previous key into the
retention set, initializes a fresh liveness window, increments the nonce. -/
def nodeJoin (minimalStake : Nat) (keyUsable : ValKey → Bool)
    (s : StakedState) (txNonce : Nat) (key : ValKey) :
    Except TxError StakedState :=
  if s.isJailed then .error .IsJailed
  else if txNonce ≠ s.nonce then .error .NonceMismatch
  else if s.bonded < minimalStake then .error .BelowMinimumStake
  else if keyUsable key then
    match s.validator with
    | none =>
        .ok { s with validator := some ⟨key, [], []⟩, nonce := s.nonce + 1 }
    | some v =>
        if MAX_USED_VALIDATOR_KEYS ≤ v.usedKeys.length then
          .error .UsedValidatorKeyFull
        else
          .ok { s with
                validator := some ⟨key,
                  if v.consensusKey = key then v.usedKeys
                  else v.consensusKey :: v.usedKeys, []⟩,
                nonce := s.nonce + 1 }
  else .error .DuplicateValidatorKey

/-- Modelled from the spec: `Unjail` — requires a matching nonce, the account
to be jailed, and `now ≥ jailed_until`; clears `jailed_until` and the pending
punishment, increments the nonce. -/
def unjail (now : Nat) (s : StakedState) (txNonce : Nat) :
    Except TxError StakedState :=
  if txNonce ≠ s.nonce then .error .NonceMismatch
  else
    match s.jailedUntil with
    | none => .error .NotJailed
    | some ju =>
        if now < ju then .error .JailTimeNotExpired
        else .ok { s with jailedUntil := none, punishment := none,
                          nonce := s.nonce + 1 }

/-- The five public staking transactions as one input type. -/
inductive StakingTx
  | deposit (amount : Nat)
  | unbond (txNonce value fee : Nat)
  | withdraw (txNonce outputsSum fee : Nat)
  | nodeJoin (txNonce : Nat) (key : ValKey)
  | unjail (txNonce : Nat)

/-- The environment a transaction is validated against: block time, network
parameters, and the key-availability oracle derived from the store. -/
structure TxEnv where
  now : Timespec
  unbondingPeriod : Nat
  minimalStake : Nat
  fee : Nat
  keyUsable : ValKey → Bool

/-- Dispatches one staking transaction against one account. -/
def applyTx (env : TxEnv) (s : StakedState) (tx : StakingTx) :
    Except TxError StakedState :=
  match tx with
  | .deposit amount => deposit s amount
  | .unbond txNonce value fee => unbond env.unbondingPeriod env.now fee s txNonce value
  | .withdraw txNonce outputsSum fee => withdraw env.now s txNonce outputsSum fee
  | .nodeJoin txNonce key => nodeJoin env.minimalStake env.keyUsable s txNonce key
  | .unjail txNonce => unjail env.now s txNonce

/-- One transaction step: a validation failure leaves the account exactly as
it was (validation failures never mutate state). -/
def stepTx (env : TxEnv) (s : StakedState) (tx : StakingTx) : StakedState :=
  match applyTx env s tx with
  | .ok s2 => s2
  | .error _ => s

/- ## Staking store and validator schedule

Modelled from the spec (sections 4.1 and 4.4) and the test
`check_choose_validators` in `chain-abci/src/staking/mod.rs`. -/

/-- The staking store as a list of accounts with distinct addresses. -/
abbrev StakingStore := List StakedState

/-- Embeds `get` of the staking store: default-constructs a zero account when
the address is absent; never fails. -/
def getAcct (store : StakingStore) (a : Addr) : StakedState :=
  match store.find? (fun s => s.address == a) with
  | some s => s
  | none => StakedState.zero a

/-- Embeds `set` of the staking store: replaces the record with the same
address, or appends it. -/
def setAcct (store : StakingStore) (s : StakedState) : StakingStore :=
  if store.any (fun x => x.address == s.address) then
    store.map (fun x => if x.address == s.address then s else x)
  else store ++ [s]

/-- Modelled from the spec: a consensus key is usable by account `a` iff it
is neither currently bound to another account nor in another account's
used-key retention set. -/
def keyUsableIn (store : StakingStore) (a : Addr) (k : ValKey) : Bool :=
  store.all (fun s =>
    s.address == a ||
      (match s.validator with
       | none => true
       | some v => !(v.consensusKey == k) && !(v.usedKeys.contains k)))

/-- A store-level deposit: validation failures leave the store untouched. -/
def storeDeposit (store : StakingStore) (a : Addr) (amount : Nat) :
    StakingStore :=
  match deposit (getAcct store a) amount with
  | .ok s => setAcct store s
  | .error _ => store

/-- A store-level node-join: validation failures leave the store untouched. -/
def storeNodeJoin (minimalStake : Nat) (store : StakingStore) (a : Addr)
    (txNonce : Nat) (key : ValKey) : StakingStore :=
  match nodeJoin minimalStake (keyUsableIn store a) (getAcct store a) txNonce key with
  | .ok s => setAcct store s
  | .error _ => store

/-- The schedule order of the validator set: bonded stake descending, with
ties broken by address ascending, so that the order is total and independent
of insertion sequence. -/
def schedRel (x y : StakedState) : Prop :=
  y.bonded < x.bonded ∨ (y.bonded = x.bonded ∧ x.address ≤ y.address)

instance : DecidableRel schedRel := fun x y => by
  unfold schedRel; exact inferInstance

instance : IsTotal StakedState schedRel where
  total x y := by
    unfold schedRel
    rcases Nat.lt_trichotomy y.bonded x.bonded with h | h | h
    · exact Or.inl (Or.inl h)
    · rcases Nat.le_total x.address y.address with ha | ha
      · exact Or.inl (Or.inr ⟨h, ha⟩)
      · exact Or.inr (Or.inr ⟨h.symm, ha⟩)
    · exact Or.inr (Or.inl h)

instance : IsTrans StakedState schedRel where
  trans x y z hxy hyz := by
    unfold schedRel at hxy hyz ⊢
    rcases hxy with h1 | h1 <;> rcases hyz with h2 | h2
    · exact Or.inl (by omega)
    · exact Or.inl (by omega)
    · exact Or.inl (by omega)
    · exact Or.inr ⟨by omega, le_trans h1.2 h2.2⟩

/-- The accounts eligible for the active set: a validator binding is present,
the account is not jailed, and the bonded stake meets the minimum. -/
def eligible (minimalStake : Nat) (store : StakingStore) : List StakedState :=
  store.filter (fun s =>
    s.validator.isSome && !s.isJailed && decide (minimalStake ≤ s.bonded))

/-- The eligible accounts in schedule order. -/
def scheduleSorted (minimalStake : Nat) (store : StakingStore) :
    List StakedState :=
  List.insertionSort schedRel (eligible minimalStake store)

/-- The consensus key bound to an account (0 when no binding is present; the
callers only apply it to eligible accounts). -/
def boundKey (s : StakedState) : ValKey :=
  match s.validator with
  | some v => v.consensusKey
  | none => 0

/-- Modelled from the spec: the active validator set is the top
`max_validators` eligible accounts in schedule order, each with power equal
to its bonded stake. -/
def chooseValidators (minimalStake maxValidators : Nat)
    (store : StakingStore) : List (ValKey × Nat) :=
  ((scheduleSorted minimalStake store).take maxValidators).map
    (fun s => (boundKey s, s.bonded))

/-- Modelled from the spec: the end-block diff against the previous active
set — entries that entered or changed power are emitted with their power, and
each displaced validator is emitted with power `0`. -/
def diffUpdates (oldSet newSet : List (ValKey × Nat)) : List (ValKey × Nat) :=
  newSet.filter (fun kv => !(oldSet.contains kv)) ++
    ((oldSet.filter (fun kv => !(newSet.any (fun nv => nv.1 == kv.1)))).map
      (fun kv => (kv.1, 0)))

/-- The end-block step of the validator schedule: recompute the active set
and report the diff. -/
def endBlock (minimalStake maxValidators : Nat) (store : StakingStore)
    (prevActive : List (ValKey × Nat)) :
    List (ValKey × Nat) × List (ValKey × Nat) :=
  let newActive := chooseValidators minimalStake maxValidators store
  (diffUpdates prevActive newActive, newActive)

/-- A genesis council-node account (as in the three-validator genesis of the
test module: bonded stake, a bound key, nothing else set). -/
def genesisValidator (a : Addr) (k : ValKey) (bondedAmount : Nat) :
    StakedState :=
  { address := a, nonce := 0, bonded := bondedAmount, unbonded := 0,
    unbondedFrom := 0, validator := some ⟨k, [], []⟩, jailedUntil := none,
    punishment := none }

/-- The three-validator genesis of the end-to-end schedule test: bonded
amounts 11, 12 and 13 (×10⁸), `minimal_stake = 10×10⁸`. -/
def genesisStore : StakingStore :=
  [genesisValidator 1 101 1100000000,
   genesisValidator 2 102 1200000000,
   genesisValidator 3 103 1300000000]

/-- The genesis active set (max_validators = 3). -/
def genesisActive : List (ValKey × Nat) :=
  chooseValidators 1000000000 3 genesisStore

/- ## Liveness tracking

Modelled from the spec (section 4.3) and pinned by the in-tree tests of
`chain-abci/src/staking/mod.rs`: a sliding window of the most recent
`block_signing_window` signature observations for the validator; deselection
and re-selection of the validator leave the window untouched and add no
observations (`check_liveness_tracking` issues begin-blocks with no votes
during the gap and asserts no slash); rejoining under a new key after an
unbond resets the window.  The non-live trigger is `missed ≥
missed_block_threshold` with no window-fullness requirement:
`check_nonlive_fault` (window 5, threshold 4) fires the NonLive slash on the
fourth observed miss with only four observations recorded, and
`check_liveness_tracking` (window 50, threshold 5) fires on the fifth miss
with the window far from full. -/

/-- The events visible to one validator's liveness tracker. -/
inductive LiveEvent
  | vote (signed : Bool)
  | deselect
  | reselect
  | rejoinNewKey (k : ValKey)

/-- One validator's liveness-tracking state. -/
structure LiveTracker where
  key : ValKey
  active : Bool
  window : List Bool
deriving DecidableEq

/-- Pushes one observation, keeping the `block_signing_window` most recent. -/
def windowPush (blockSigningWindow : Nat) (w : List Bool) (signed : Bool) :
    List Bool :=
  (signed :: w).take blockSigningWindow

/-- One step of the liveness tracker: a commit-info vote records a bit;
deselection and re-selection only toggle activity; rejoining under a new key
resets the window. -/
def liveStep (blockSigningWindow : Nat) (t : LiveTracker) (e : LiveEvent) :
    LiveTracker :=
  match e with
  | .vote signed =>
      { t with window := windowPush blockSigningWindow t.window signed }
  | .deselect => { t with active := false }
  | .reselect => { t with active := true }
  | .rejoinNewKey k => { t with key := k, window := [] }

/-- The number of missed blocks recorded in a window. -/
def missedCount (w : List Bool) : Nat := w.countP (fun b => !b)

/-- Non-liveness: the validator is non-live as soon as the missed count in
its window reaches `missed_block_threshold`.  The in-tree tests pin this
trigger at `missed ≥ threshold` with no window-fullness requirement
(`check_nonlive_fault` fires on the fourth miss of a size-5 window with
threshold 4 and only four observations recorded; `check_liveness_tracking`
fires at `missed = threshold` with a size-50 window far from full). -/
def nonLive (blockSigningWindow missedBlockThreshold : Nat)
    (t : LiveTracker) : Bool :=
  decide (missedBlockThreshold ≤ missedCount t.window)

/-- Runs a list of liveness events. -/
def liveRun (blockSigningWindow : Nat) (t : LiveTracker)
    (es : List LiveEvent) : LiveTracker :=
  es.foldl (liveStep blockSigningWindow) t

/- ## Punishment pipeline

The enqueue half is embedded from `begin_block`
(`chain-abci/src/app/mod.rs`, which sets `slashing_time = block_time +
slash_wait_period` and jails the punished accounts in the same block); the
execution half (`slash_eligible_accounts`, in the absent
`chain-abci/src/app/slash_accounts.rs`) is modelled from the spec: records
with `slash_at ≤ now` deduct `proportion × (bonded + unbonded)`, bonded
first, credit the reward pool's `period_bonus`, and are cleared. -/

/-- Enqueues a punishment: the record's `slash_at` is `now +
slash_wait_period` and the account is jailed immediately until then. -/
def enqueuePunishment (kind : PunishmentKind) (proportion : SlashProportion)
    (slashWaitPeriod now : Nat) (s : StakedState) : StakedState :=
  { s with punishment := some ⟨kind, proportion, now + slashWaitPeriod⟩,
           jailedUntil := some (now + slashWaitPeriod) }

/-- The slash amount of a record: `proportion × (bonded + unbonded)`,
floored. -/
def slashAmount (p : SlashProportion) (s : StakedState) : Nat :=
  (s.bonded + s.unbonded) * p.num / p.den

/-- Executes the pending punishment when due (`slash_at ≤ now`): deducts the
slash amount from bonded first, then unbonded, credits `period_bonus`, and
clears the record.  Returns the new account, the new `period_bonus`, and the
emitted slash, if any. -/
def executeDueSlash (now : Nat) (s : StakedState) (periodBonus : Nat) :
    StakedState × Nat × Option (Addr × Nat × PunishmentKind) :=
  match s.punishment with
  | none => (s, periodBonus, none)
  | some r =>
      if r.slashAt ≤ now then
        let amt := slashAmount r.proportion s
        let fromBonded := min s.bonded amt
        ({ s with bonded := s.bonded - fromBonded,
                  unbonded := s.unbonded - (amt - fromBonded),
                  punishment := none },
         periodBonus + amt, some (s.address, amt, r.kind))
      else (s, periodBonus, none)

/-- The per-account punishment part of one begin-block: when a fault was
reported (`punish = true`) the punishment is enqueued (jailing immediately),
then any record that is due at `now` is executed. -/
def beginBlockPunish (kind : PunishmentKind) (proportion : SlashProportion)
    (slashWaitPeriod now : Nat) (punish : Bool) (s : StakedState)
    (periodBonus : Nat) :
    StakedState × Nat × Option (Addr × Nat × PunishmentKind) :=
  let s1 := if punish then enqueuePunishment kind proportion slashWaitPeriod now s
            else s
  executeDueSlash now s1 periodBonus

/- ## Byzantine-evidence idempotence

Modelled from the spec (section 4.5): evidence is identified by the triple
`(validator_key, height, index)`; a triple that has already been acted upon
is dropped silently. -/

/-- An evidence identity triple. -/
abbrev EvidenceId := ValKey × Nat × Nat

/-- The state byzantine evidence acts on: the targeted account, the reward
pool's `period_bonus`, and the set of triples already acted upon. -/
structure EvidenceState where
  acct : StakedState
  periodBonus : Nat
  processed : List EvidenceId
deriving DecidableEq

/-- Applies one piece of byzantine evidence: an already-processed triple is
dropped silently; otherwise the punishment is enqueued (jailing the account),
any due slash executes, and the triple is recorded. -/
def applyEvidence (proportion : SlashProportion) (slashWaitPeriod now : Nat)
    (st : EvidenceState) (e : EvidenceId) :
    EvidenceState × List (Addr × Nat × PunishmentKind) :=
  if e ∈ st.processed then (st, [])
  else
    let r := beginBlockPunish .ByzantineFault proportion slashWaitPeriod now
      true st.acct st.periodBonus
    ({ acct := r.1, periodBonus := r.2.1, processed := e :: st.processed },
     match r.2.2 with
     | some sl => [sl]
     | none => [])

/- ## Genesis configuration validation

Embedded from `chain-core/src/init/config.rs` (present in the tree), plus
`RewardsPoolState` and `CouncilNode` from `chain-core/src/state/mod.rs`. -/

/-- Embeds `ValidatorKeyType`. -/
inductive ValidatorKeyType
  | Ed25519
  | Secp256k1
deriving DecidableEq

/-- Embeds `TendermintValidatorPubKey`; the byte payloads are length-checked
by `check_validator_key` exactly as in the source. -/
inductive TendermintValidatorPubKey
  | Ed25519 (bytes : List Nat)
  | Secp256k1 (bytes : List Nat)
deriving DecidableEq

/-- Embeds `AccountType`. -/
inductive AccountType
  | ExternallyOwnedAccount
  | Contract
deriving DecidableEq

/-- Embeds `InitialValidator`.  The `consensus_pubkey_b64` string is embedded
as the result of `base64::decode` on it: `none` when the string is not valid
base64, otherwise the decoded bytes. -/
structure InitialValidator where
  stakingAccountAddress : Addr
  consensusPubkeyType : ValidatorKeyType
  consensusPubkeyB64 : Option (List Nat)
deriving DecidableEq

/-- Embeds `LinearFee`. -/
structure LinearFee where
  constant : Nat
  coefficient : Nat
deriving DecidableEq

/-- Embeds `InitNetworkParameters`. -/
structure InitNetworkParameters where
  initialFeePolicy : LinearFee
  requiredCouncilNodeStake : Coin
  unbondingPeriod : Nat
deriving DecidableEq

/-- Embeds `InitConfig`.  The `BTreeMap` distribution is embedded as its
entry list in ascending key order with distinct keys. -/
structure InitConfig where
  distribution : List (Addr × Coin × AccountType)
  launchIncentiveFrom : Addr
  launchIncentiveTo : Addr
  longTermIncentive : Addr
  networkParams : InitNetworkParameters
  councilNodes : List InitialValidator
deriving DecidableEq

/-- Embeds `DistributionError`. -/
inductive DistributionError
  | DistributionCoinError (e : CoinError)
  | DoesNotMatchMaxSupply
  | AddressNotInDistribution (a : Addr)
  | DoesNotMatchRequiredAmount (a : Addr) (c : Coin)
  | InvalidValidatorKey
  | InvalidValidatorAccount
deriving DecidableEq

/-- Embeds `CouncilNode` (`chain-core/src/state/mod.rs`): the staking account
address, the consensus public key, and the update counter (0 at creation). -/
structure CouncilNode where
  stakingAccountAddress : Addr
  consensusPubkey : TendermintValidatorPubKey
  nonce : Nat
deriving DecidableEq

/-- Embeds `RewardsPoolState` (`chain-core/src/state/mod.rs`). -/
structure RewardsPoolState where
  remaining : Coin
  lastBlockHeight : Nat
deriving DecidableEq

/-- Modelled from the spec: `Account` as constructed by `Account::new_init`
(`chain-core/src/state/account.rs` is absent from the tree); the call site in
`config.rs` passes the amount, the genesis time, the address, and whether the
address is an initial validator. -/
structure Account where
  amount : Coin
  genesisTime : Timespec
  address : Addr
  isValidator : Bool
deriving DecidableEq

/-- A distribution lookup (`self.distribution.get(address)`). -/
def InitConfig.distGet (c : InitConfig) (a : Addr) :
    Option (Coin × AccountType) :=
  (c.distribution.find? (fun e => e.1 == a)).map (fun e => e.2)

/-- Embeds `InitConfig::check_address`. -/
def checkAddress (c : InitConfig) (a : Addr) :
    Except DistributionError Unit :=
  if (c.distGet a).isSome then .ok () else .error (.AddressNotInDistribution a)

/-- Embeds `InitConfig::check_address_expected_amount`. -/
def checkAddressExpectedAmount (c : InitConfig) (a : Addr) (expected : Coin) :
    Except DistributionError Unit :=
  match c.distGet a with
  | some (coin, t) =>
      if coin = expected ∧ t = AccountType.ExternallyOwnedAccount then .ok ()
      else .error (.DoesNotMatchRequiredAmount a coin)
  | none => .error (.AddressNotInDistribution a)

/-- Embeds `InitConfig::check_validator_key`: a 32-byte Ed25519 or a 33-byte
Secp256k1 decoded key is accepted, everything else is rejected. -/
def checkValidatorKey (t : ValidatorKeyType) (encoded : Option (List Nat)) :
    Except DistributionError TendermintValidatorPubKey :=
  match encoded with
  | some key =>
      match key.length, t with
      | 32, .Ed25519 => .ok (.Ed25519 key)
      | 33, .Secp256k1 => .ok (.Secp256k1 key)
      | _, _ => .error .InvalidValidatorKey
  | none => .error .InvalidValidatorKey

/-- Embeds `InitConfig::is_rewards_pool_address`. -/
def InitConfig.isRewardsPoolAddress (c : InitConfig) (a : Addr) : Bool :=
  a == c.launchIncentiveFrom || a == c.launchIncentiveTo ||
    a == c.longTermIncentive

/-- Embeds the `council_nodes` loop of `validate_config_get_genesis`:
rewards-pool or duplicate accounts are invalid; each node's account must hold
exactly the required council-node stake as an externally owned account; each
consensus key must be well-formed.  Returns the council nodes and the set of
validator addresses. -/
def validateNodes (c : InitConfig) :
    List InitialValidator → List CouncilNode → List Addr →
    Except DistributionError (List CouncilNode × List Addr)
  | [], acc, seen => .ok (acc.reverse, seen)
  | node :: rest, acc, seen =>
      if c.isRewardsPoolAddress node.stakingAccountAddress ||
          seen.contains node.stakingAccountAddress then
        .error .InvalidValidatorAccount
      else
        match checkAddressExpectedAmount c node.stakingAccountAddress
            c.networkParams.requiredCouncilNodeStake with
        | .error e => .error e
        | .ok _ =>
            match checkValidatorKey node.consensusPubkeyType
                node.consensusPubkeyB64 with
            | .error e => .error e
            | .ok key =>
                validateNodes c rest
                  (⟨node.stakingAccountAddress, key, 0⟩ :: acc)
                  (node.stakingAccountAddress :: seen)

/-- Embeds `InitConfig::get_genesis_state`: rewards-pool addresses and
contract accounts accumulate into the rewards-pool amount (a plain `u64`
sum in the source, hence wrapping at `2^64`), every other entry becomes an
initial account; `none` models the `expect` panic when the pool amount
exceeds `MAX_COIN`. -/
def getGenesisState (c : InitConfig) (genesisTime : Timespec)
    (validatorAddresses : List Addr) :
    Option (List Account × RewardsPoolState) :=
  let rpAmount := c.distribution.foldl
    (fun acc e =>
      if c.isRewardsPoolAddress e.1 || e.2.2 == AccountType.Contract then
        (acc + e.2.1.val) % U64_MOD
      else acc) 0
  let accounts := c.distribution.filterMap
    (fun e =>
      if c.isRewardsPoolAddress e.1 || e.2.2 == AccountType.Contract then none
      else some ⟨e.2.1, genesisTime, e.1, validatorAddresses.contains e.1⟩)
  match Coin.new rpAmount with
  | .ok coin => some (accounts, ⟨coin, 0⟩)
  | .error _ => none

/-- The outcome of `validate_config_get_genesis`: a genesis state, a
`DistributionError`, or a panic (the `expect` inside `get_genesis_state`). -/
inductive GenesisValidation
  | ok (accounts : List Account) (rewardsPool : RewardsPoolState)
      (nodes : List CouncilNode)
  | err (e : DistributionError)
  | panicked
deriving DecidableEq

/-- Embeds `InitConfig::validate_config_get_genesis`, in source order: the
three incentive addresses must be in the distribution, the council nodes must
validate, and `sum_coins` over the distribution must equal `Coin::max()`. -/
def validateConfigGetGenesis (c : InitConfig) (genesisTime : Timespec) :
    GenesisValidation :=
  match checkAddress c c.launchIncentiveFrom with
  | .error e => .err e
  | .ok _ =>
  match checkAddress c c.launchIncentiveTo with
  | .error e => .err e
  | .ok _ =>
  match checkAddress c c.longTermIncentive with
  | .error e => .err e
  | .ok _ =>
  match validateNodes c c.councilNodes [] [] with
  | .error e => .err e
  | .ok (validators, validatorAddresses) =>
  match sumCoins (c.distribution.map (fun e => e.2.1)) with
  | .ok s =>
      if s = Coin.maxCoin then
        match getGenesisState c genesisTime validatorAddresses with
        | some (accounts, rp) => .ok accounts rp validators
        | none => .panicked
      else .err .DoesNotMatchMaxSupply
  | .error e => .err (.DistributionCoinError e)

/-- Embeds the decision structure of `init_chain_handler`
(`chain-abci/src/app/app_init.rs`): when distribution validation fails the
handler panics — modelled as `none` — and no state is installed; on success
the genesis state is installed. -/
def initChainHandler (c : InitConfig) (genesisTime : Timespec) :
    Option (List Account × RewardsPoolState × List CouncilNode) :=
  match validateConfigGetGenesis c genesisTime with
  | .ok accounts rp nodes => some (accounts, rp, nodes)
  | .err _ => none
  | .panicked => none

/- ## Begin-block message handling and the info handler

Embedded from `chain-abci/src/app/mod.rs`.  A `none` result models a panic
of the handler (the `panic!`/`expect` calls in the source); a `some` result
models normal continuation. -/

/-- The begin-block request header: the protobuf `time` field is optional,
the proposer address is a raw byte string. -/
structure BlockHeader where
  height : Nat
  time : Option Timespec
  proposerAddress : List Nat
deriving DecidableEq

/-- One entry of `last_commit_info.votes`: the validator field is optional in
the protobuf encoding. -/
structure VoteInfo where
  validatorAddress : Option (List Nat)
  signedLastBlock : Bool
deriving DecidableEq

/-- The `last_commit_info` message. -/
structure LastCommitInfoMsg where
  votes : List VoteInfo
deriving DecidableEq

/-- One entry of `byzantine_validators`: the validator field is optional. -/
structure EvidenceMsg where
  validatorAddress : Option (List Nat)
deriving DecidableEq

/-- The begin-block request: the header itself is optional in the protobuf
encoding. -/
structure RequestBeginBlockMsg where
  header : Option BlockHeader
  lastCommitInfo : Option LastCommitInfoMsg
  byzantineValidators : List EvidenceMsg
deriving DecidableEq

/-- Embeds `TendermintValidatorAddress::try_from` on a byte slice: exactly
20 bytes are accepted (the type wraps a 20-byte digest; the Rust definition
lives in `chain-core/src/state/tendermint.rs`, absent from the tree). -/
def validatorAddressFromBytes (bs : List Nat) : Option (List Nat) :=
  if bs.length = 20 then some bs else none

/-- Decodes the commit-info votes as `update_validator_liveness` does: a vote
without a validator, or with an undecodable address, panics (`none`). -/
def decodeVotes (prevHeight : Nat) :
    List VoteInfo → Option (List (List Nat × Nat × Bool))
  | [] => some []
  | v :: rest =>
      match v.validatorAddress with
      | none => none
      | some bs =>
          match validatorAddressFromBytes bs with
          | none => none
          | some a =>
              (decodeVotes prevHeight rest).map
                (fun l => (a, prevHeight, v.signedLastBlock) :: l)

/-- Decodes the byzantine-evidence entries as `begin_block` does: an entry
without a validator is skipped (`if let Some`), an undecodable validator
address panics (`none`). -/
def decodeEvidence : List EvidenceMsg → Option (List (List Nat))
  | [] => some []
  | e :: rest =>
      match e.validatorAddress with
      | none => decodeEvidence rest
      | some bs =>
          match validatorAddressFromBytes bs with
          | none => none
          | some a => (decodeEvidence rest).map (fun l => a :: l)

/-- The application state touched by the embedded begin-block fragment. -/
structure BeginBlockState where
  blockTime : Timespec
  livenessRecords : List (List Nat × Nat × Bool)
  punishedAddresses : List (List Nat)
  proposerCredits : List (List Nat)
deriving DecidableEq

/-- Embeds the message-validation control flow of `begin_block`
(`chain-abci/src/app/mod.rs`): panics (`none`) on a missing header, a missing
header timestamp, a missing committed state, a missing `last_commit_info`
when the previous block is past genesis, or an undecodable validator address
in a vote or in byzantine evidence.  An invalid proposer address does NOT
panic: the proposer reward record is skipped (`log::error!`) and processing
continues.  The punishment bookkeeping downstream of the address decoding
lives in modules absent from the tree and is abstracted to recording the
punished addresses. -/
def beginBlockModel (lastState : Option BeginBlockState)
    (req : RequestBeginBlockMsg) : Option BeginBlockState :=
  match req.header with
  | none => none
  | some header =>
  match header.time with
  | none => none
  | some t =>
  let proposer := validatorAddressFromBytes header.proposerAddress
  match lastState with
  | none => none
  | some st =>
  let updates :=
    if header.height ≤ 2 then some []
    else
      match req.lastCommitInfo with
      | none => none
      | some lci => decodeVotes (header.height - 1) lci.votes
  match updates with
  | none => none
  | some ups =>
  match decodeEvidence req.byzantineValidators with
  | none => none
  | some punished =>
      some { blockTime := t,
             livenessRecords := ups ++ st.livenessRecords,
             punishedAddresses := punished ++ st.punishedAddresses,
             proposerCredits :=
               match proposer with
               | some p => p :: st.proposerCredits
               | none => st.proposerCredits }

/-- Embeds `ResponseInfo` (the fields `info` sets, with their protobuf
defaults: empty strings, zero numbers, empty hash). -/
structure ResponseInfo where
  data : String
  version : String
  appVersion : Nat
  lastBlockHeight : Nat
  lastBlockAppHash : List Nat
deriving DecidableEq

/-- Embeds `ResponseInfo::new()`: all fields at their defaults. -/
def ResponseInfo.newDefault : ResponseInfo :=
  { data := "", version := "", appVersion := 0, lastBlockHeight := 0,
    lastBlockAppHash := [] }

/-- The committed application state as read by the `info` handler. -/
structure InfoState where
  lastBlockHeight : Nat
  lastApphash : List Nat
deriving DecidableEq

/-- The application handle as read by the `info` handler: the genesis app
hash and the optional last committed state. -/
structure InfoApp where
  genesisAppHash : List Nat
  lastState : Option InfoState
deriving DecidableEq

/-- Embeds the `info` handler (`chain-abci/src/app/mod.rs`): with a committed
state it reports that state (the JSON serialization and version strings are
parameters, as they come from collaborators); with no committed state it
returns the default response with only `last_block_app_hash` set to the
genesis app hash.  It is a total function: it never fails. -/
def infoHandler (encodeState : InfoState → String) (versionString : String)
    (appVersionConst : Nat) (app : InfoApp) : ResponseInfo :=
  match app.lastState with
  | some st =>
      { data := encodeState st, version := versionString,
        appVersion := appVersionConst, lastBlockHeight := st.lastBlockHeight,
        lastBlockAppHash := st.lastApphash }
  | none =>
      { ResponseInfo.newDefault with lastBlockAppHash := app.genesisAppHash }

/- ## Concrete inputs used by the witnesses and counterexamples -/

/-- A plain bonded account. -/
def sampleAccount : StakedState :=
  { address := 7, nonce := 0, bonded := 100, unbonded := 0, unbondedFrom := 0,
    validator := none, jailedUntil := none, punishment := none }

/-- A transaction environment with no fee and every key available. -/
def sampleEnv : TxEnv :=
  { now := 0, unbondingPeriod := 10, minimalStake := 50, fee := 0,
    keyUsable := fun _ => true }

/-- The result of unbonding 5 from `sampleAccount` at time 0. -/
def sampleUnbonded : StakedState :=
  { sampleAccount with bonded := 95, unbonded := 5, unbondedFrom := 10,
                       nonce := 1 }

/-- A short transaction sequence. -/
def sampleTxs : List StakingTx :=
  [.deposit 3, .unbond 0 5 0, .withdraw 1 5 0]

/-- A jailed account. -/
def jailedAccount : StakedState :=
  { address := 9, nonce := 4, bonded := 50, unbonded := 20, unbondedFrom := 0,
    validator := none, jailedUntil := some 1000, punishment := none }

/-- A ten-percent slash proportion. -/
def tenPercent : SlashProportion := ⟨1, 10⟩

/-- An unjailed account about to be punished. -/
def punishAccount : StakedState :=
  { address := 5, nonce := 2, bonded := 100, unbonded := 50, unbondedFrom := 0,
    validator := none, jailedUntil := none, punishment := none }

/-- An account carrying a pending punishment due at time 8. -/
def pendingAccount : StakedState :=
  { address := 5, nonce := 2, bonded := 100, unbonded := 50, unbondedFrom := 0,
    validator := none, jailedUntil := some 8,
    punishment := some ⟨.ByzantineFault, tenPercent, 8⟩ }

/-- The store after the fourth account deposits 10×10⁸ and node-joins with
key 104. -/
def storeAfterJoin : StakingStore :=
  storeNodeJoin 1000000000 (storeDeposit genesisStore 4 1000000000) 4 0 104

/-- The first end-block of the schedule-replacement run. -/
def firstEndBlock : List (ValKey × Nat) × List (ValKey × Nat) :=
  endBlock 1000000000 3 storeAfterJoin genesisActive

/-- The store after the fourth account deposits a further 2×10⁸. -/
def storeAfterTopUp : StakingStore := storeDeposit storeAfterJoin 4 200000000

/-- The second end-block of the schedule-replacement run. -/
def secondEndBlock : List (ValKey × Nat) × List (ValKey × Nat) :=
  endBlock 1000000000 3 storeAfterTopUp firstEndBlock.2

/-- A fresh liveness tracker for key 101. -/
def trackerStart : LiveTracker := ⟨101, true, []⟩

/-- The liveness run of end-to-end scenario 4: misses at blocks 1, 2, 3,
deselection at block 4, re-selection at block 5, a miss at block 6. -/
def c6Misses : List LiveEvent :=
  [.vote false, .vote false, .vote false, .deselect, .reselect, .vote false]

/-- A distribution of three individually valid coins whose partial `u64` sums
wrap: `10^19 + 10^19 + 8446744073709551616 = MAX_COIN + 2^64`. -/
def overflowConfig : InitConfig :=
  { distribution :=
      [(1, ⟨10000000000000000000⟩, .ExternallyOwnedAccount),
       (2, ⟨10000000000000000000⟩, .ExternallyOwnedAccount),
       (3, ⟨8446744073709551616⟩, .ExternallyOwnedAccount)],
    launchIncentiveFrom := 1, launchIncentiveTo := 2, longTermIncentive := 3,
    networkParams := ⟨⟨0, 0⟩, ⟨0⟩, 0⟩, councilNodes := [] }

/-- A distribution summing exactly to `MAX_COIN`. -/
def goodConfig : InitConfig :=
  { distribution :=
      [(1, ⟨4000000000000000000⟩, .ExternallyOwnedAccount),
       (2, ⟨3000000000000000000⟩, .ExternallyOwnedAccount),
       (3, ⟨3000000000000000000⟩, .ExternallyOwnedAccount)],
    launchIncentiveFrom := 1, launchIncentiveTo := 2, longTermIncentive := 3,
    networkParams := ⟨⟨0, 0⟩, ⟨0⟩, 0⟩, councilNodes := [] }

/-- A distribution one unit short of `MAX_COIN`. -/
def shortConfig : InitConfig :=
  { distribution :=
      [(1, ⟨4000000000000000000⟩, .ExternallyOwnedAccount),
       (2, ⟨3000000000000000000⟩, .ExternallyOwnedAccount),
       (3, ⟨2999999999999999999⟩, .ExternallyOwnedAccount)],
    launchIncentiveFrom := 1, launchIncentiveTo := 2, longTermIncentive := 3,
    networkParams := ⟨⟨0, 0⟩, ⟨0⟩, 0⟩, councilNodes := [] }

/-- An empty begin-block application state. -/
def sampleBeginState : BeginBlockState := ⟨0, [], [], []⟩

/-- A header with a valid timestamp but a 3-byte (invalid) proposer
address. -/
def goodHeaderBadProposer : BlockHeader := ⟨1, some 42, [1, 2, 3]⟩

/-- A begin-block request carrying `goodHeaderBadProposer`. -/
def badProposerReq : RequestBeginBlockMsg :=
  ⟨some goodHeaderBadProposer, none, []⟩

/- ## Helper lemmas -/

theorem applyTx_ok_nonce (env : TxEnv) (s : StakedState) (tx : StakingTx)
    (s2 : StakedState) (h : applyTx env s tx = .ok s2) :
    match tx with
    | .deposit _ => s2.nonce = s.nonce
    | _ => s2.nonce = s.nonce + 1 := by
  cases tx <;>
    simp only [applyTx, deposit, unbond, withdraw, nodeJoin, unjail] at h <;>
    (repeat' split at h) <;>
    first
      | exact Except.noConfusion h
      | (injection h with h2; subst h2; rfl)

theorem stepTx_nonce_le (env : TxEnv) (s : StakedState) (tx : StakingTx) :
    s.nonce ≤ (stepTx env s tx).nonce := by
  unfold stepTx
  cases h : applyTx env s tx with
  | error e => exact Nat.le_refl _
  | ok s2 =>
    show s.nonce ≤ s2.nonce
    cases tx with
    | deposit amount =>
        have h2 : s2.nonce = s.nonce :=
          applyTx_ok_nonce env s (.deposit amount) s2 h
        omega
    | unbond a b c =>
        have h2 : s2.nonce = s.nonce + 1 :=
          applyTx_ok_nonce env s (.unbond a b c) s2 h
        omega
    | withdraw a b c =>
        have h2 : s2.nonce = s.nonce + 1 :=
          applyTx_ok_nonce env s (.withdraw a b c) s2 h
        omega
    | nodeJoin a k =>
        have h2 : s2.nonce = s.nonce + 1 :=
          applyTx_ok_nonce env s (.nodeJoin a k) s2 h
        omega
    | unjail a =>
        have h2 : s2.nonce = s.nonce + 1 :=
          applyTx_ok_nonce env s (.unjail a) s2 h
        omega

theorem foldl_stepTx_nonce_le (env : TxEnv) (txs : List StakingTx)
    (s : StakedState) : s.nonce ≤ (txs.foldl (stepTx env) s).nonce := by
  induction txs generalizing s with
  | nil => exact Nat.le_refl _
  | cons t ts ih =>
      exact Nat.le_trans (stepTx_nonce_le env s t) (ih (stepTx env s t))

/- ## Claim theorems -/

/-- Claim C1: for every staking account and staking transaction, a successful
unbond, withdraw, node-join or unjail increments the account's nonce by
exactly one, a successful deposit leaves the nonce unchanged, and the nonce
never decreases across any sequence of operations (successful or failed). -/
theorem C1_nonce_discipline :
    (∀ (env : TxEnv) (s : StakedState) (amount : Nat) (s2 : StakedState),
        applyTx env s (.deposit amount) = .ok s2 → s2.nonce = s.nonce) ∧
    (∀ (env : TxEnv) (s : StakedState) (a b c : Nat) (s2 : StakedState),
        applyTx env s (.unbond a b c) = .ok s2 → s2.nonce = s.nonce + 1) ∧
    (∀ (env : TxEnv) (s : StakedState) (a b c : Nat) (s2 : StakedState),
        applyTx env s (.withdraw a b c) = .ok s2 → s2.nonce = s.nonce + 1) ∧
    (∀ (env : TxEnv) (s : StakedState) (a : Nat) (k : ValKey)
        (s2 : StakedState),
        applyTx env s (.nodeJoin a k) = .ok s2 → s2.nonce = s.nonce + 1) ∧
    (∀ (env : TxEnv) (s : StakedState) (a : Nat) (s2 : StakedState),
        applyTx env s (.unjail a) = .ok s2 → s2.nonce = s.nonce + 1) ∧
    (∀ (env : TxEnv) (s : StakedState) (txs : List StakingTx),
        s.nonce ≤ (txs.foldl (stepTx env) s).nonce) :=
  ⟨fun env s amount s2 h => applyTx_ok_nonce env s (.deposit amount) s2 h,
   fun env s a b c s2 h => applyTx_ok_nonce env s (.unbond a b c) s2 h,
   fun env s a b c s2 h => applyTx_ok_nonce env s (.withdraw a b c) s2 h,
   fun env s a k s2 h => applyTx_ok_nonce env s (.nodeJoin a k) s2 h,
   fun env s a s2 h => applyTx_ok_nonce env s (.unjail a) s2 h,
   fun env s txs => foldl_stepTx_nonce_le env txs s⟩

/-- Witness for C1: a concrete successful unbond increments the nonce by one,
and the nonce is monotone over a concrete transaction sequence. -/
theorem C1_nonce_discipline_witness :
    (sampleUnbonded.nonce = sampleAccount.nonce + 1) ∧
    (sampleAccount.nonce ≤
        (sampleTxs.foldl (stepTx sampleEnv) sampleAccount).nonce) :=
  ⟨C1_nonce_discipline.2.1 sampleEnv sampleAccount 0 5 0 sampleUnbonded
      (by decide),
   C1_nonce_discipline.2.2.2.2.2 sampleEnv sampleAccount sampleTxs⟩

/-- Claim C2: for every jailed account, deposit, unbond, withdraw and
node-join are rejected with `IsJailed`, and the rejection leaves the
account's entire state — including its nonce — unchanged. -/
theorem C2_jailed_rejection (s : StakedState) (h : s.isJailed = true) :
    (∀ amount, deposit s amount = .error .IsJailed) ∧
    (∀ p now fee txNonce value,
        unbond p now fee s txNonce value = .error .IsJailed) ∧
    (∀ now txNonce outs fee,
        withdraw now s txNonce outs fee = .error .IsJailed) ∧
    (∀ m ku txNonce key, nodeJoin m ku s txNonce key = .error .IsJailed) ∧
    (∀ env amount, stepTx env s (.deposit amount) = s) ∧
    (∀ env txNonce value fee, stepTx env s (.unbond txNonce value fee) = s) ∧
    (∀ env txNonce outs fee, stepTx env s (.withdraw txNonce outs fee) = s) ∧
    (∀ env txNonce key, stepTx env s (.nodeJoin txNonce key) = s) := by
  refine ⟨?_, ?_, ?_, ?_, ?_, ?_, ?_, ?_⟩ <;> intros <;>
    simp [deposit, unbond, withdraw, nodeJoin, stepTx, applyTx, h]

/-- Witness for C2 at a concrete jailed account. -/
theorem C2_jailed_rejection_witness :
    deposit jailedAccount 5 = .error .IsJailed ∧
    stepTx sampleEnv jailedAccount (.unbond 4 10 0) = jailedAccount :=
  ⟨(C2_jailed_rejection jailedAccount (by decide)).1 5,
   (C2_jailed_rejection jailedAccount (by decide)).2.2.2.2.2.1 sampleEnv 4 10 0⟩

/-- Counterexample for C3: with `slash_wait_period = 0` the very begin-block
that enqueues the punishment also deducts the balances (`slash_at = now ≤
now`), refuting the unconditional "balances are not deducted in that
block". -/
theorem C3_same_block_deduction :
    (beginBlockPunish .ByzantineFault tenPercent 0 5 true punishAccount 0).1.bonded
        = 85 ∧
    punishAccount.bonded = 100 ∧
    (beginBlockPunish .ByzantineFault tenPercent 0 5 true punishAccount
        0).1.jailedUntil = some 5 := by
  refine ⟨by decide, by decide, by decide⟩

/-- Claim C3 (amended: the no-deduction statement for the enqueuing block
holds provided `slash_wait_period > 0`): enqueuing jails immediately with
`jailed_until = slash_at = now + slash_wait_period` and leaves both balances
and the reward pool untouched in that block; the deduction of
`proportion × (bonded + unbonded)` — bonded first, then unbonded, credited
to `period_bonus`, clearing the record — executes exactly at a begin-block
whose time satisfies `slash_at ≤ now`, and never before. -/
theorem C3_deferred_slashing :
    (∀ (kind : PunishmentKind) (prop : SlashProportion) (wait now : Nat)
        (s : StakedState) (pb : Nat), 0 < wait →
        (beginBlockPunish kind prop wait now true s pb).1.jailedUntil
            = some (now + wait) ∧
        (beginBlockPunish kind prop wait now true s pb).1.punishment
            = some ⟨kind, prop, now + wait⟩ ∧
        (beginBlockPunish kind prop wait now true s pb).1.bonded = s.bonded ∧
        (beginBlockPunish kind prop wait now true s pb).1.unbonded
            = s.unbonded ∧
        (beginBlockPunish kind prop wait now true s pb).2.1 = pb ∧
        (beginBlockPunish kind prop wait now true s pb).2.2 = none) ∧
    (∀ (kind : PunishmentKind) (prop : SlashProportion) (wait now2 : Nat)
        (s : StakedState) (r : PunishmentRecord) (pb : Nat),
        s.punishment = some r → r.slashAt ≤ now2 →
        (beginBlockPunish kind prop wait now2 false s pb).1.bonded
            = s.bonded - min s.bonded (slashAmount r.proportion s) ∧
        (beginBlockPunish kind prop wait now2 false s pb).1.unbonded
            = s.unbonded -
                (slashAmount r.proportion s -
                  min s.bonded (slashAmount r.proportion s)) ∧
        (beginBlockPunish kind prop wait now2 false s pb).2.1
            = pb + slashAmount r.proportion s ∧
        (beginBlockPunish kind prop wait now2 false s pb).1.punishment
            = none ∧
        (beginBlockPunish kind prop wait now2 false s pb).2.2
            = some (s.address, slashAmount r.proportion s, r.kind)) ∧
    (∀ (kind : PunishmentKind) (prop : SlashProportion) (wait now2 : Nat)
        (s : StakedState) (r : PunishmentRecord) (pb : Nat),
        s.punishment = some r → now2 < r.slashAt →
        beginBlockPunish kind prop wait now2 false s pb = (s, pb, none)) := by
  refine ⟨?_, ?_, ?_⟩
  · intro kind prop wait now s pb hw
    have hlt : ¬ (now + wait ≤ now) := by omega
    simp [beginBlockPunish, enqueuePunishment, executeDueSlash, hlt]
  · intro kind prop wait now2 s r pb hp hle
    simp [beginBlockPunish, executeDueSlash, hp, hle]
  · intro kind prop wait now2 s r pb hp hlt
    have hn : ¬ (r.slashAt ≤ now2) := Nat.not_le.mpr hlt
    simp [beginBlockPunish, executeDueSlash, hp, hn]

/-- Witness for C3: at concrete inputs the enqueuing block (wait 3) leaves
balances untouched, a due record (slash_at 8, now 9) is cleared, and an
undue record (slash_at 8, now 7) changes nothing. -/
theorem C3_deferred_slashing_witness :
    ((beginBlockPunish .ByzantineFault tenPercent 3 5 true punishAccount
        0).1.bonded = punishAccount.bonded) ∧
    ((beginBlockPunish .ByzantineFault tenPercent 3 9 false pendingAccount
        7).1.punishment = none) ∧
    (beginBlockPunish .ByzantineFault tenPercent 3 7 false pendingAccount 7
        = (pendingAccount, 7, none)) :=
  ⟨(C3_deferred_slashing.1 .ByzantineFault tenPercent 3 5 punishAccount 0
      (by decide)).2.2.1,
   (C3_deferred_slashing.2.1 .ByzantineFault tenPercent 3 9 pendingAccount
      ⟨.ByzantineFault, tenPercent, 8⟩ 7 (by decide) (by decide)).2.2.2.1,
   C3_deferred_slashing.2.2 .ByzantineFault tenPercent 3 7 pendingAccount
      ⟨.ByzantineFault, tenPercent, 8⟩ 7 (by decide) (by decide)⟩

/-- Claim C4: from the three-validator genesis (bonded 11, 12, 13 ×10⁸,
max_validators 3), after the fourth account deposits 10×10⁸ and node-joins
the end-block emits no update; after a further 2×10⁸ deposit the next
end-block emits exactly the new key with power 12×10⁸ and the displaced
smallest validator (key 101, stake 11×10⁸) with power 0.  The active set is
always the top `max_validators` accounts in `(bonded DESC, address ASC)`
order. -/
theorem C4_schedule_replacement :
    firstEndBlock.1 = [] ∧
    secondEndBlock.1 = [(104, 1200000000), (101, 0)] ∧
    (∀ (minimalStake maxValidators : Nat) (store : StakingStore),
        List.Sorted schedRel (scheduleSorted minimalStake store) ∧
        (chooseValidators minimalStake maxValidators store).length
            ≤ maxValidators) := by
  refine ⟨by decide, by decide, ?_⟩
  intro m maxV store
  refine ⟨List.sorted_insertionSort schedRel _, ?_⟩
  have hlen : (chooseValidators m maxV store).length
      = min maxV (scheduleSorted m store).length := by
    simp [chooseValidators]
  omega

/-- Claim C5: applying byzantine evidence with a `(validator_key, height,
index)` triple that has already been applied produces no slash and no state
change: evidence handling is idempotent. -/
theorem C5_evidence_idempotent (prop : SlashProportion) (wait now : Nat)
    (st : EvidenceState) (e : EvidenceId) :
    applyEvidence prop wait now (applyEvidence prop wait now st e).1 e
      = ((applyEvidence prop wait now st e).1, []) := by
  by_cases h : e ∈ st.processed
  · simp [applyEvidence, h]
  · simp [applyEvidence, h]

/-- Counterexample for C6: in the claim's own scenario (window 5, threshold
4, misses at blocks 1, 2, 3, deselection at 4, re-selection at 5, a miss at
block 6) the miss at block 6 is the fourth miss in the preserved window and
already fires the NonLive slash — with only four observations recorded — so
"Total missed in window = 4 — no slash" is false of the program, whose tests
fire at `missed ≥ threshold` with no window-fullness requirement. -/
theorem C6_slash_fires_at_block_six :
    nonLive 5 4 (liveRun 5 trackerStart c6Misses) = true ∧
    (liveRun 5 trackerStart c6Misses).window.length = 4 := by
  refine ⟨by decide, by decide⟩

/-- Claim C6 (amended: the non-live trigger is `missed ≥ threshold` with no
window-fullness requirement, so in the concrete scenario the fourth miss —
at block 6, after the gap — already fires the slash; no miss at block 7 is
needed): deselection followed by re-selection preserves the liveness window,
so misses recorded before the gap still count afterwards — three pre-gap
misses leave the validator live, and the single post-gap miss at block 6
pushes it over, while the same post-gap miss without the pre-gap history
does not; rejoining under a new key resets the window. -/
theorem C6_liveness_window :
    (∀ (w : Nat) (t : LiveTracker),
        (liveStep w (liveStep w t .deselect) .reselect).window = t.window) ∧
    (∀ (w : Nat) (t : LiveTracker) (k : ValKey),
        (liveStep w t (.rejoinNewKey k)).window = []) ∧
    nonLive 5 4 (liveRun 5 trackerStart
        [.vote false, .vote false, .vote false]) = false ∧
    nonLive 5 4 (liveRun 5 trackerStart c6Misses) = true ∧
    nonLive 5 4 (liveRun 5 trackerStart [.deselect, .reselect, .vote false])
        = false := by
  refine ⟨fun w t => rfl, fun w t k => rfl, by decide, by decide, by decide⟩

/-- Claim C7 at its failing input: a distribution of three individually valid
amounts totalling `MAX_COIN + 2^64` is accepted by
`validate_config_get_genesis` (the partial `u64` sums wrap), instead of
failing with `DoesNotMatchMaxSupply`; an honestly short distribution does
fail, and an exact distribution passes. -/
theorem C7_wrapping_sum_accepted :
    validateConfigGetGenesis overflowConfig 0
        = .ok [] ⟨⟨MAX_COIN⟩, 0⟩ [] ∧
    (overflowConfig.distribution.map (fun e => e.2.1.val)).sum
        = MAX_COIN + U64_MOD ∧
    validateConfigGetGenesis shortConfig 0 = .err .DoesNotMatchMaxSupply ∧
    validateConfigGetGenesis goodConfig 0 = .ok [] ⟨⟨MAX_COIN⟩, 0⟩ [] := by
  refine ⟨by decide, by decide, by decide, by decide⟩

/-- Claim C8 at its failing input: adding `Coin(MAX_COIN)` to itself wraps at
`2^64` and returns `Ok(Coin(1553255926290448384))` even though the true sum
exceeds `MAX_COIN`, instead of `Err(CoinError::OutOfBound)` (a debug build
aborts on the same input). -/
theorem C8_add_overflow_wraps :
    Coin.add Coin.maxCoin Coin.maxCoin = .ok ⟨1553255926290448384⟩ ∧
    MAX_COIN < MAX_COIN + MAX_COIN ∧
    Coin.add Coin.maxCoin Coin.maxCoin
        ≠ .error (.OutOfBound (MAX_COIN + MAX_COIN)) := by
  refine ⟨by decide, by decide, by decide⟩

/-- Counterexample for C9: a request with a well-formed header and timestamp
but a 3-byte (invalid) proposer address does NOT halt the node — begin-block
completes normally. -/
theorem C9_invalid_proposer_no_panic :
    (beginBlockModel (some sampleBeginState) badProposerReq).isSome = true ∧
    validatorAddressFromBytes goodHeaderBadProposer.proposerAddress
        = none := by
  refine ⟨by decide, by decide⟩

/-- Claim C9 (amended: an invalid proposer address does not halt the node; it
is logged and skipped, no proposer credit is recorded, and processing
continues): begin-block panics on a request lacking a block header or a
header timestamp. -/
theorem C9_begin_block_malformed :
    (∀ (ls : Option BeginBlockState) (req : RequestBeginBlockMsg),
        req.header = none → beginBlockModel ls req = none) ∧
    (∀ (ls : Option BeginBlockState) (req : RequestBeginBlockMsg)
        (hd : BlockHeader),
        req.header = some hd → hd.time = none →
        beginBlockModel ls req = none) ∧
    (∀ (st : BeginBlockState) (hd : BlockHeader) (t : Timespec),
        hd.time = some t → hd.height ≤ 2 →
        validatorAddressFromBytes hd.proposerAddress = none →
        beginBlockModel (some st) ⟨some hd, none, []⟩
          = some { blockTime := t, livenessRecords := st.livenessRecords,
                   punishedAddresses := st.punishedAddresses,
                   proposerCredits := st.proposerCredits }) := by
  refine ⟨?_, ?_, ?_⟩
  · intro ls req h
    simp [beginBlockModel, h]
  · intro ls req hd hh ht
    simp [beginBlockModel, hh, ht]
  · intro st hd t ht hle hbad
    simp [beginBlockModel, ht, hbad, hle, decodeEvidence]

/-- Witness for C9 at concrete requests: missing header panics, missing
timestamp panics, and an invalid proposer address completes with no credit
recorded. -/
theorem C9_begin_block_malformed_witness :
    beginBlockModel (some sampleBeginState) ⟨none, none, []⟩ = none ∧
    beginBlockModel (some sampleBeginState)
        ⟨some ⟨1, none, [1, 2, 3]⟩, none, []⟩ = none ∧
    beginBlockModel (some sampleBeginState)
        ⟨some ⟨1, some 42, [1, 2, 3]⟩, none, []⟩
      = some { blockTime := 42,
               livenessRecords := sampleBeginState.livenessRecords,
               punishedAddresses := sampleBeginState.punishedAddresses,
               proposerCredits := sampleBeginState.proposerCredits } :=
  ⟨C9_begin_block_malformed.1 (some sampleBeginState) ⟨none, none, []⟩ rfl,
   C9_begin_block_malformed.2.1 (some sampleBeginState)
      ⟨some ⟨1, none, [1, 2, 3]⟩, none, []⟩ ⟨1, none, [1, 2, 3]⟩ rfl rfl,
   C9_begin_block_malformed.2.2 sampleBeginState ⟨1, some 42, [1, 2, 3]⟩ 42
      rfl (by decide) (by decide)⟩

/-- Claim C10: with no committed state (`last_state = None`) the info handler
returns the genesis app hash as `last_block_app_hash` and leaves every other
field at its default zero or empty value; it is total, hence never fails. -/
theorem C10_info_no_state (encodeState : InfoState → String)
    (versionString : String) (appVersionConst : Nat) (app : InfoApp)
    (h : app.lastState = none) :
    infoHandler encodeState versionString appVersionConst app
      = { data := "", version := "", appVersion := 0, lastBlockHeight := 0,
          lastBlockAppHash := app.genesisAppHash } := by
  simp [infoHandler, h, ResponseInfo.newDefault]

/-- Witness for C10 at a concrete uninitialized application handle. -/
theorem C10_info_no_state_witness :
    infoHandler (fun _ => "") "" 0 ⟨[7, 7], none⟩
      = { data := "", version := "", appVersion := 0, lastBlockHeight := 0,
          lastBlockAppHash := [7, 7] } :=
  C10_info_no_state (fun _ => "") "" 0 ⟨[7, 7], none⟩ rfl
